import Mathlib

/-!
Verification of the pg-stat-dump collector core.

The development shallowly embeds the two source files (`src/main.rs`,
`src/printer.rs`): the type renderer (`convert_to_strings` / the per-column
converters `ts`, `tso`, `auto`, `clean_ws`), the width tracker and snapshot
encoder (`render`), the connection teardown (`attempt_close`), the shutdown
coordinator (`expect_ctrl_c`'s signal handler), and the collection loop of
`main`. Rust panics and early `?` returns are modelled with `Option` /
explicit exit statuses; machine integers that matter (`usize` lengths,
column widths) are modelled as `Nat`.
-/

namespace PgStatDump

/-! ### Whitespace collapsing (`clean_ws`, regex `\s+` → `" "`) -/

/-- Unicode `White_Space` predicate: the character class matched by the
Rust regex `\s` used in the static `WS` pattern `"\s+"`. -/
def isWs (c : Char) : Bool :=
  c.val = 0x9 || c.val = 0xa || c.val = 0xb || c.val = 0xc || c.val = 0xd ||
  c.val = 0x20 || c.val = 0x85 || c.val = 0xa0 || c.val = 0x1680 ||
  (0x2000 ≤ c.val && c.val ≤ 0x200a) ||
  c.val = 0x2028 || c.val = 0x2029 || c.val = 0x202f || c.val = 0x205f ||
  c.val = 0x3000

/-- `WS.replace_all(s, " ")` on a character list: each maximal run of
whitespace characters is replaced by a single space.  The boolean records
whether the previous character was part of a whitespace run. -/
def cleanWsAux : Bool → List Char → List Char
  | _, [] => []
  | prevWs, c :: rest =>
    if isWs c then
      if prevWs then cleanWsAux true rest
      else ' ' :: cleanWsAux true rest
    else c :: cleanWsAux false rest

/-- `clean_ws` from `main.rs`: `WS.replace_all(s, " ").to_string()`. -/
def clean_ws (s : String) : String := ⟨cleanWsAux false s.data⟩

/-! ### Timestamp rendering (`ts`, `tso`)

`ts` calls chrono's `to_rfc3339_opts(SecondsFormat::Micros, true)` on a UTC
timestamp.  chrono is an external dependency; its documented output for a
UTC value is the ISO-8601 / RFC-3339 string
`YYYY-MM-DDTHH:MM:SS.ssssssZ` with exactly six fractional digits and a
literal `Z`.  We embed that behaviour over a plain calendar record. -/

structure Timestamp where
  year : Nat
  month : Nat
  day : Nat
  hour : Nat
  minute : Nat
  second : Nat
  micro : Nat
deriving DecidableEq, Repr

/-- Zero-pad the decimal rendering of `n` on the left to width `w`. -/
def padNum (w n : Nat) : String :=
  let s := toString n
  ⟨List.replicate (w - s.length) '0'⟩ ++ s

/-- `ts` from `main.rs` / `printer.rs`: RFC-3339 at microsecond precision,
with `Z` for UTC (chrono `to_rfc3339_opts(SecondsFormat::Micros, true)`). -/
def ts (t : Timestamp) : String :=
  padNum 4 t.year ++ "-" ++ padNum 2 t.month ++ "-" ++ padNum 2 t.day ++ "T" ++
  padNum 2 t.hour ++ ":" ++ padNum 2 t.minute ++ ":" ++ padNum 2 t.second ++
  "." ++ padNum 6 t.micro ++ "Z"

/-- `tso` from `main.rs` / `printer.rs`: `v.map(ts).unwrap_or_default()`. -/
def tso (v : Option Timestamp) : String :=
  (v.map ts).getD ""

/-- `auto` from `main.rs` / `printer.rs`: `clean_ws(&v.to_string())` for a
present value, the empty string for an absent one. -/
def auto {α : Type} [ToString α] (v : Option α) : String :=
  match v with
  | some v => clean_ws (toString v)
  | none => ""

/-! ### The type renderer (`convert_to_strings` / the row loop of `fetch`)

A database cell is the decoded value the code asks `row.get` for: in the
source each arm decodes an `Option<T>` with `T` fixed by the column's type
tag (`DateTime<Utc>` for `timestamptz`, `Oid` = `u32` for `oid`, `String`
for `name`/`text`/`varchar`, `i32` for `int4`).  A `panic!` (unknown type
tag, or a decode of the wrong shape) is modelled as `none`. -/

inductive Cell
  | timestamp (t : Option Timestamp)
  | oidV (n : Option Nat)
  | strV (s : Option String)
  | intV (n : Option Int)
deriving DecidableEq

/-- The fixed set of type tags the renderer's `match` supports. -/
def supportedTags : List String :=
  ["timestamptz", "oid", "name", "text", "varchar", "int4"]

/-- One arm dispatch of the `match column.type_().name()` in
`convert_to_strings` (and the identical loop body of `fetch`): `none` is
the `panic!("unknown type: ...")` arm, or a decode mismatch. -/
def convertCell (tag : String) (c : Cell) : Option String :=
  if tag = "timestamptz" then
    match c with
    | Cell.timestamp t => some (tso t)
    | _ => none
  else if tag = "oid" then
    match c with
    | Cell.oidV n => some (auto n)
    | _ => none
  else if tag = "name" ∨ tag = "text" ∨ tag = "varchar" then
    match c with
    | Cell.strV s => some (auto s)
    | _ => none
  else if tag = "int4" then
    match c with
    | Cell.intV n => some (auto n)
    | _ => none
  else none

/-- The inner loop of `convert_to_strings`: walk the schema's type tags in
order, reading the cell at each positional index (`row.get(i)`); a missing
cell is the out-of-range `Row::get` panic. Cells beyond the schema length
are ignored, as the source only indexes `0..columns.len()`. -/
def convertRow (tags : List String) (row : List Cell) : Option (List String) :=
  match tags, row with
  | [], _ => some []
  | _ :: _, [] => none
  | tag :: tags, c :: cs =>
    match convertCell tag c, convertRow tags cs with
    | some s, some rest => some (s :: rest)
    | _, _ => none

/-- A schema column: name and type tag, in result-description order. -/
structure Column where
  name : String
  tag : String
deriving DecidableEq

/-- The outer row loop of `convert_to_strings`: convert each row in
order, pushing onto `lines`; a panic anywhere aborts the whole call. -/
def convertRows (tags : List String) : List (List Cell) → Option (List (List String))
  | [] => some []
  | r :: rs =>
    match convertRow tags r, convertRows tags rs with
    | some out, some rest => some (out :: rest)
    | _, _ => none

/-- `convert_to_strings` from `printer.rs` (the same code is inlined in
`fetch` in `main.rs`): the header row of column names followed by one
rendered row per input row; `none` models a panic while converting. -/
def convert_to_strings (columns : List Column) (rows : List (List Cell)) :
    Option (List (List String)) :=
  match convertRows (columns.map Column.tag) rows with
  | some converted => some (columns.map Column.name :: converted)
  | none => none

/-! ### Width tracker and snapshot encoder (`render` in `printer.rs`)

`render`'s first pass mutates `mins` in place through
`line.iter().zip(mins.iter_mut())`: the shared prefix of each line and the
width array is bumped to the running maximum of byte lengths; entries of
`mins` beyond the line's length are untouched.  We model the tracked
length with `String.length`. -/

/-- One line of the first pass: `for (col, min) in line.iter().zip(mins.iter_mut())
{ if col.len() > *min { *min = col.len() } }`. -/
def bumpLine : List String → List Nat → List Nat
  | _, [] => []
  | [], mins => mins
  | c :: cs, m :: ms => max m c.length :: bumpLine cs ms

/-- The whole first pass of `render`: fold `bumpLine` over all lines
(header row included) in order. -/
def updateMins (lines : List (List String)) (mins : List Nat) : List Nat :=
  lines.foldl (fun m l => bumpLine l m) mins

/-- `format!("{:1$}", col, w)`: left-align `col`, padding on the right
with spaces up to width `w`; a longer `col` is emitted unchanged. -/
def padTo (col : String) (w : Nat) : String :=
  col ++ ⟨List.replicate (w - col.length) ' '⟩

/-- Concatenation of string pieces pushed onto the output buffer in order. -/
def strConcat (l : List String) : String := l.foldr (· ++ ·) ""

/-- One line of the second pass of `render`: `last = mins.len() - 1`
(whose computation panics for an empty width array), the first `last`
entries of `line.iter().zip(mins.iter())` padded to `min + 3`, then
`line[last]` verbatim (panicking when out of bounds), then `'\n'`.
`none` models either panic. -/
def renderLine (line : List String) (mins : List Nat) : Option String :=
  if mins.isEmpty then none
  else
    match line.get? (mins.length - 1) with
    | none => none
    | some lastCol =>
      some (strConcat ((List.zipWith (fun c m => padTo c (m + 3)) line mins).take (mins.length - 1))
        ++ lastCol ++ "\n")

/-- The second pass of `render`: concatenate every line's rendering into
one buffer; `none` if any line panics. -/
def renderPass2 : List (List String) → List Nat → Option String
  | [], _ => some ""
  | l :: ls, mins =>
    match renderLine l mins, renderPass2 ls mins with
    | some s, some rest => some (s ++ rest)
    | _, _ => none

/-- `render` from `printer.rs` (identical in `main.rs`): update the width
state, then encode every row against the updated widths.  Returns the
text block together with the mutated width array; `none` models a panic. -/
def render (lines : List (List String)) (mins : List Nat) :
    Option (String × List Nat) :=
  match renderPass2 lines (updateMins lines mins) with
  | some buf => some (buf, updateMins lines mins)
  | none => none

/-! ### Connection teardown (`attempt_close` in `main.rs`) -/

/-- The observable state of a `postgres::Client` for teardown purposes:
whether the underlying session is already closed, and (as an oracle for
the environment) whether an actual `close()` call would return an error. -/
structure Client where
  isClosed : Bool
  closeWouldFail : Bool
deriving DecidableEq

/-- A `Pg` handle: the client plus its prepared statement; `statLive`
records whether the prepared statement is still held (it is dropped on
close). -/
structure Pg where
  client : Client
  statLive : Bool
deriving DecidableEq

/-- `attempt_close` from `main.rs`: a no-op when `client.is_closed()`;
otherwise drop the statement and close the session, logging (second
component: one diagnostic line) but never propagating a close error. -/
def attempt_close (conn : Pg) : Pg × List String :=
  if conn.client.isClosed then (conn, [])
  else
    let closed : Pg :=
      { client := { isClosed := true, closeWouldFail := conn.client.closeWouldFail },
        statLive := false }
    if conn.client.closeWouldFail then (closed, ["error closing"])
    else (closed, [])

/-! ### Shutdown coordinator (`expect_ctrl_c` in `main.rs`)

A `sync_channel(1)` seen from the signal handler: `empty` (a `try_send`
succeeds), `full` (the single slot holds an unconsumed notification) and
`disconnected` (the receiver was dropped). -/

inductive ChanState
  | empty
  | full
  | disconnected
deriving DecidableEq

/-- What one delivery of the interrupt does. -/
structure HandlerResult where
  chan : ChanState
  loggedCleanShutdown : Bool
  exitCode : Option Nat
deriving DecidableEq

/-- The `ctrlc::set_handler` closure of `expect_ctrl_c`: `try_send(())`;
on `Ok` log "started clean shutdown"; on `Full` or `Disconnected` log and
`std::process::exit(6)` immediately (no cleanup runs). -/
def ctrlcHandler : ChanState → HandlerResult
  | ChanState.empty =>
    { chan := ChanState.full, loggedCleanShutdown := true, exitCode := none }
  | ChanState.full =>
    { chan := ChanState.full, loggedCleanShutdown := false, exitCode := some 6 }
  | ChanState.disconnected =>
    { chan := ChanState.disconnected, loggedCleanShutdown := false, exitCode := some 6 }

/-! ### The collection loop (`main` in `main.rs`, lines 188–227)

The loop is driven by an environment trace: one `CycleEnv` per iteration
describes what the outside world does during that cycle — the outcome of
the first `fetch`, of the reconnect and retry `fetch` when needed, of the
compressed write and flush, whether `started_time.elapsed()` exceeds
`max_uptime`, and the result of `recv_timeout` on the shutdown channel.
The width state `mins` is threaded exactly as in the source; a `render`
panic aborts the process.  `do_finish` is modelled as succeeding. -/

/-- Outcome of one `fetch` call: the converted lines, or a `FetchError`. -/
inductive FetchRes
  | ok (lines : List (List String))
  | err
deriving DecidableEq

/-- Result of `recv_timeout(poll_interval)` on the shutdown channel. -/
inductive RecvRes
  | timeout
  | notified
  | disconnected
deriving DecidableEq

/-- The environment's behaviour during one loop iteration. -/
structure CycleEnv where
  fetch1 : FetchRes
  closeFails : Bool
  reconnectOk : Bool
  fetch2 : FetchRes
  writeOk : Bool
  flushOk : Bool
  overUptime : Bool
  recv : RecvRes

/-- How one iteration of the loop ends. -/
inductive CycleOutcome
  | next
  | breakClean
  | fatal
  | panicked
deriving DecidableEq

/-- Counters of the externally visible operations one iteration performs. -/
structure CycleEvents where
  fetches : Nat
  connects : Nat
  closes : Nat
  recvWaits : Nat
  closeErrLogs : Nat
deriving DecidableEq

/-- The tail of a loop iteration once `lines` are in hand (main.rs lines
199–216): render, write, flush (each `?` on failure), then the max-uptime
check, then — only if uptime is not exceeded — a single wait on the
shutdown channel. -/
def afterFetch (env : CycleEnv) (mins : List Nat) (lines : List (List String))
    (ev : CycleEvents) : CycleOutcome × CycleEvents × List Nat :=
  match render lines mins with
  | none => (CycleOutcome.panicked, ev, mins)
  | some (_, bumped) =>
    if env.writeOk = false then (CycleOutcome.fatal, ev, bumped)
    else if env.flushOk = false then (CycleOutcome.fatal, ev, bumped)
    else if env.overUptime then (CycleOutcome.breakClean, ev, bumped)
    else
      let ev := { ev with recvWaits := ev.recvWaits + 1 }
      match env.recv with
      | RecvRes.timeout => (CycleOutcome.next, ev, bumped)
      | RecvRes.notified => (CycleOutcome.breakClean, ev, bumped)
      | RecvRes.disconnected => (CycleOutcome.breakClean, ev, bumped)

/-- One iteration of the loop (main.rs lines 188–216): `fetch`, and on a
`FetchError` exactly the recovery of lines 191–196 — log, `attempt_close`
the broken handle (a close error adds a log line only), one `connect`,
one retry `fetch`, each failure propagating via `?`. -/
def stepCycle (env : CycleEnv) (mins : List Nat) :
    CycleOutcome × CycleEvents × List Nat :=
  match env.fetch1 with
  | FetchRes.ok lines =>
    afterFetch env mins lines
      { fetches := 1, connects := 0, closes := 0, recvWaits := 0, closeErrLogs := 0 }
  | FetchRes.err =>
    let logs := if env.closeFails then 1 else 0
    if env.reconnectOk then
      match env.fetch2 with
      | FetchRes.ok lines =>
        afterFetch env mins lines
          { fetches := 2, connects := 1, closes := 1, recvWaits := 0, closeErrLogs := logs }
      | FetchRes.err =>
        (CycleOutcome.fatal,
          { fetches := 2, connects := 1, closes := 1, recvWaits := 0, closeErrLogs := logs },
          mins)
    else
      (CycleOutcome.fatal,
        { fetches := 1, connects := 1, closes := 1, recvWaits := 0, closeErrLogs := logs },
        mins)

/-- How the whole run after setup ends. `running` marks a trace that was
exhausted before the loop ended. -/
inductive ExitStatus
  | cleanExit
  | errExit
  | panicExit
  | running
deriving DecidableEq

/-- Aggregate observable behaviour of the run. -/
structure RunResult where
  exit : ExitStatus
  finalizes : Nat
  closes : Nat
  fetches : Nat
  connects : Nat
deriving DecidableEq

/-- The loop of `main` plus its aftermath (lines 188–227): on a clean
break the final `attempt_close(conn)` runs and `output.do_finish()` is
called once; a `?` propagation exits `main` early, skipping both; a panic
aborts the process, likewise skipping both. -/
def runLoop : List CycleEnv → List Nat → RunResult
  | [], _ =>
    { exit := ExitStatus.running, finalizes := 0, closes := 0, fetches := 0, connects := 0 }
  | env :: rest, mins =>
    match stepCycle env mins with
    | (CycleOutcome.next, ev, bumped) =>
      let r := runLoop rest bumped
      { exit := r.exit, finalizes := r.finalizes, closes := ev.closes + r.closes,
        fetches := ev.fetches + r.fetches, connects := ev.connects + r.connects }
    | (CycleOutcome.breakClean, ev, _) =>
      { exit := ExitStatus.cleanExit, finalizes := 1, closes := ev.closes + 1,
        fetches := ev.fetches, connects := ev.connects }
    | (CycleOutcome.fatal, ev, _) =>
      { exit := ExitStatus.errExit, finalizes := 0, closes := ev.closes,
        fetches := ev.fetches, connects := ev.connects }
    | (CycleOutcome.panicked, ev, _) =>
      { exit := ExitStatus.panicExit, finalizes := 0, closes := ev.closes,
        fetches := ev.fetches, connects := ev.connects }

/-! ### Supporting lemmas: whitespace collapsing on decimal strings -/

theorem cleanWsAux_of_not_ws (l : List Char) (h : ∀ c ∈ l, isWs c = false) :
    ∀ b, cleanWsAux b l = l := by
  induction l with
  | nil => intro b; rfl
  | cons c cs ih =>
    intro b
    have hc : isWs c = false := h c (List.mem_cons_self c cs)
    have hcs : ∀ x ∈ cs, isWs x = false := fun x hx => h x (List.mem_cons_of_mem c hx)
    simp [cleanWsAux, hc, ih hcs]

theorem clean_ws_eq_self {s : String} (h : ∀ c ∈ s.data, isWs c = false) :
    clean_ws s = s := by
  show String.mk (cleanWsAux false s.data) = s
  rw [cleanWsAux_of_not_ws s.data h false]

theorem isWs_digitChar (n : Nat) : isWs (Nat.digitChar n) = false := by
  have h : Nat.digitChar n = '0' ∨ Nat.digitChar n = '1' ∨ Nat.digitChar n = '2' ∨
      Nat.digitChar n = '3' ∨ Nat.digitChar n = '4' ∨ Nat.digitChar n = '5' ∨
      Nat.digitChar n = '6' ∨ Nat.digitChar n = '7' ∨ Nat.digitChar n = '8' ∨
      Nat.digitChar n = '9' ∨ Nat.digitChar n = 'a' ∨ Nat.digitChar n = 'b' ∨
      Nat.digitChar n = 'c' ∨ Nat.digitChar n = 'd' ∨ Nat.digitChar n = 'e' ∨
      Nat.digitChar n = 'f' ∨ Nat.digitChar n = '*' := by
    unfold Nat.digitChar
    by_cases h0 : n = 0; · simp [h0]
    by_cases h1 : n = 1; · simp [h0, h1]
    by_cases h2 : n = 2; · simp [h0, h1, h2]
    by_cases h3 : n = 3; · simp [h0, h1, h2, h3]
    by_cases h4 : n = 4; · simp [h0, h1, h2, h3, h4]
    by_cases h5 : n = 5; · simp [h0, h1, h2, h3, h4, h5]
    by_cases h6 : n = 6; · simp [h0, h1, h2, h3, h4, h5, h6]
    by_cases h7 : n = 7; · simp [h0, h1, h2, h3, h4, h5, h6, h7]
    by_cases h8 : n = 8; · simp [h0, h1, h2, h3, h4, h5, h6, h7, h8]
    by_cases h9 : n = 9; · simp [h0, h1, h2, h3, h4, h5, h6, h7, h8, h9]
    by_cases ha : n = 0xa; · simp [h0, h1, h2, h3, h4, h5, h6, h7, h8, h9, ha]
    by_cases hb : n = 0xb; · simp [h0, h1, h2, h3, h4, h5, h6, h7, h8, h9, ha, hb]
    by_cases hc : n = 0xc; · simp [h0, h1, h2, h3, h4, h5, h6, h7, h8, h9, ha, hb, hc]
    by_cases hd : n = 0xd; · simp [h0, h1, h2, h3, h4, h5, h6, h7, h8, h9, ha, hb, hc, hd]
    by_cases he : n = 0xe; · simp [h0, h1, h2, h3, h4, h5, h6, h7, h8, h9, ha, hb, hc, hd, he]
    by_cases hf : n = 0xf; · simp [h0, h1, h2, h3, h4, h5, h6, h7, h8, h9, ha, hb, hc, hd, he, hf]
    simp [h0, h1, h2, h3, h4, h5, h6, h7, h8, h9, ha, hb, hc, hd, he, hf]
  rcases h with h | h | h | h | h | h | h | h | h | h | h | h | h | h | h | h | h <;>
    rw [h] <;> decide

theorem toDigitsCore_not_ws :
    ∀ (fuel n : Nat) (ds : List Char), (∀ c ∈ ds, isWs c = false) →
      ∀ c ∈ Nat.toDigitsCore 10 fuel n ds, isWs c = false := by
  intro fuel
  induction fuel with
  | zero => intro n ds h c hc; exact h c hc
  | succ fuel ih =>
    intro n ds h c hc
    simp only [Nat.toDigitsCore] at hc
    have hds : ∀ x ∈ Nat.digitChar (n % 10) :: ds, isWs x = false := by
      intro x hx
      rcases List.mem_cons.mp hx with rfl | hmem
      · exact isWs_digitChar _
      · exact h x hmem
    split at hc
    · exact hds c hc
    · exact ih _ _ hds c hc

theorem natRepr_not_ws (n : Nat) : ∀ c ∈ (Nat.repr n).data, isWs c = false := by
  intro c hc
  exact toDigitsCore_not_ws (n + 1) n [] (by intro x hx; cases hx) c hc

theorem clean_ws_toString_nat (n : Nat) : clean_ws (toString n) = toString n :=
  clean_ws_eq_self (natRepr_not_ws n)

theorem intToString_not_ws (i : Int) : ∀ c ∈ (toString i).data, isWs c = false := by
  cases i with
  | ofNat m => exact natRepr_not_ws m
  | negSucc m =>
    intro c hc
    have hdata : (toString (Int.negSucc m)).data = '-' :: (Nat.repr (m + 1)).data := by
      show (("-" : String) ++ toString (Nat.succ m)).data = _
      rw [String.data_append]
      rfl
    rw [hdata] at hc
    rcases List.mem_cons.mp hc with rfl | hmem
    · decide
    · exact natRepr_not_ws _ c hmem

theorem clean_ws_toString_int (i : Int) : clean_ws (toString i) = toString i :=
  clean_ws_eq_self (intToString_not_ws i)

/-! ### Claims C4 and C3: the type renderer -/

/-- C4: the conversion of one column value is determined by the type tag —
`timestamptz` becomes the ISO-8601 / RFC-3339 string at microsecond
precision (empty when absent), `oid` and `int4` become their plain decimal
strings (empty when absent), and `name`/`text`/`varchar` become the raw
string with every whitespace run collapsed to one space (empty when
absent); `convertCell` being a Lean function, the conversion is a pure
function of the tag and the value. -/
theorem claim_C4 :
    (∀ t, convertCell "timestamptz" (Cell.timestamp (some t)) = some (ts t)) ∧
    (convertCell "timestamptz" (Cell.timestamp none) = some "") ∧
    (∀ n, convertCell "oid" (Cell.oidV (some n)) = some (toString n)) ∧
    (convertCell "oid" (Cell.oidV none) = some "") ∧
    (∀ i, convertCell "int4" (Cell.intV (some i)) = some (toString i)) ∧
    (convertCell "int4" (Cell.intV none) = some "") ∧
    (∀ s, convertCell "name" (Cell.strV (some s)) = some (clean_ws s)) ∧
    (∀ s, convertCell "text" (Cell.strV (some s)) = some (clean_ws s)) ∧
    (∀ s, convertCell "varchar" (Cell.strV (some s)) = some (clean_ws s)) ∧
    (convertCell "name" (Cell.strV none) = some "") ∧
    (convertCell "text" (Cell.strV none) = some "") ∧
    (convertCell "varchar" (Cell.strV none) = some "") := by
  refine ⟨fun t => rfl, rfl, fun n => ?_, rfl, fun i => ?_, rfl,
    fun s => rfl, fun s => rfl, fun s => rfl, rfl, rfl, rfl⟩
  · show some (auto (some n)) = some (toString n)
    simp [auto, clean_ws_toString_nat]
  · show some (auto (some i)) = some (toString i)
    simp [auto, clean_ws_toString_int]

/-- Shape agreement between a type tag and the decoded cell the source
asks `row.get` for at that column. -/
def cellMatches : String → Cell → Bool
  | "timestamptz", Cell.timestamp _ => true
  | "oid", Cell.oidV _ => true
  | "name", Cell.strV _ => true
  | "text", Cell.strV _ => true
  | "varchar", Cell.strV _ => true
  | "int4", Cell.intV _ => true
  | _, _ => false

theorem convertCell_isSome_of_matches {tag : String} {c : Cell}
    (hs : tag ∈ supportedTags) (hm : cellMatches tag c = true) :
    (convertCell tag c).isSome = true := by
  simp only [supportedTags, List.mem_cons, List.not_mem_nil, or_false] at hs
  rcases hs with rfl | rfl | rfl | rfl | rfl | rfl <;>
    cases c <;> simp_all [cellMatches, convertCell]

theorem convertRow_of_matches {tags : List String} {row : List Cell}
    (hs : ∀ tag ∈ tags, tag ∈ supportedTags)
    (hm : List.Forall₂ (fun tag c => cellMatches tag c = true) tags row) :
    ∃ out, convertRow tags row = some out ∧ out.length = tags.length := by
  induction hm with
  | nil => exact ⟨[], rfl, rfl⟩
  | cons h hrest ih =>
    rename_i tag c tags' row'
    obtain ⟨out, hout, hlen⟩ := ih (fun t ht => hs t (List.mem_cons_of_mem _ ht))
    have hsome : (convertCell tag c).isSome = true :=
      convertCell_isSome_of_matches (hs tag (List.mem_cons_self _ _)) h
    obtain ⟨s, hsval⟩ := Option.isSome_iff_exists.mp hsome
    refine ⟨s :: out, ?_, by simp [hlen]⟩
    simp [convertRow, hsval, hout]

/-- C3: for every list of rows over a schema whose type tags all lie in
the supported set, conversion never panics and yields the header row plus
one rendered row per input row, each of exactly schema length; and every
type tag outside the supported set makes the per-cell conversion panic
(`none`), whatever the value — the fatal, unrecoverable condition. -/
theorem claim_C3 (columns : List Column) (rows : List (List Cell))
    (hsupp : ∀ col ∈ columns, col.tag ∈ supportedTags)
    (hty : ∀ row ∈ rows,
      List.Forall₂ (fun tag c => cellMatches tag c = true) (columns.map Column.tag) row) :
    (∃ lines, convert_to_strings columns rows = some lines ∧
      lines.length = rows.length + 1 ∧
      ∀ l ∈ lines, l.length = columns.length) ∧
    (∀ tag, tag ∉ supportedTags → ∀ c, convertCell tag c = none) := by
  constructor
  · have htags : ∀ tag ∈ columns.map Column.tag, tag ∈ supportedTags := by
      intro tag ht
      obtain ⟨col, hcol, rfl⟩ := List.mem_map.mp ht
      exact hsupp col hcol
    have hrows : ∀ row ∈ rows, ∃ out,
        convertRow (columns.map Column.tag) row = some out ∧
        out.length = columns.length := by
      intro row hrow
      obtain ⟨out, hout, hlen⟩ := convertRow_of_matches htags (hty row hrow)
      exact ⟨out, hout, by simpa using hlen⟩
    obtain ⟨converted, hconv, hclen, hlens⟩ :
        ∃ converted, convertRows (columns.map Column.tag) rows = some converted ∧
          converted.length = rows.length ∧
          ∀ l ∈ converted, l.length = columns.length := by
      clear hty
      induction rows with
      | nil => exact ⟨[], rfl, rfl, by intro l hl; cases hl⟩
      | cons r rs ih =>
        obtain ⟨out, hout, hlen⟩ := hrows r (List.mem_cons_self _ _)
        obtain ⟨cs, hcs, hcl, hcls⟩ :=
          ih (fun row hrow => hrows row (List.mem_cons_of_mem _ hrow))
        refine ⟨out :: cs, ?_, by simp [hcl], ?_⟩
        · simp [convertRows, hout, hcs]
        · intro l hl
          rcases List.mem_cons.mp hl with rfl | hmem
          · exact hlen
          · exact hcls l hmem
    refine ⟨columns.map Column.name :: converted, ?_, by simp [hclen], ?_⟩
    · simp [convert_to_strings, hconv]
    · intro l hl
      rcases List.mem_cons.mp hl with rfl | hmem
      · simp
      · exact hlens l hmem
  · intro tag htag c
    simp only [supportedTags, List.mem_cons, List.not_mem_nil, or_false, not_or] at htag
    obtain ⟨h1, h2, h3, h4, h5, h6⟩ := htag
    unfold convertCell
    rw [if_neg h1, if_neg h2, if_neg (by tauto), if_neg h6]

/-- Witness for C3 at the concrete schema of end-to-end scenario A. -/
theorem claim_C3_witness :
    ((∃ lines,
        convert_to_strings
          [⟨"now", "timestamptz"⟩, ⟨"pid", "int4"⟩, ⟨"query", "text"⟩]
          [[Cell.timestamp none, Cell.intV (some 42), Cell.strV (some "select  1")]]
          = some lines ∧
        lines.length = 1 + 1 ∧
        ∀ l ∈ lines, l.length = 3) ∧
      (∀ tag, tag ∉ supportedTags → ∀ c, convertCell tag c = none)) := by
  have h := claim_C3
    [⟨"now", "timestamptz"⟩, ⟨"pid", "int4"⟩, ⟨"query", "text"⟩]
    [[Cell.timestamp none, Cell.intV (some 42), Cell.strV (some "select  1")]]
    (by intro col hc; fin_cases hc <;> simp [supportedTags])
    (by
      intro row hrow
      rcases List.mem_cons.mp hrow with rfl | h
      · refine List.Forall₂.cons rfl (List.Forall₂.cons rfl (List.Forall₂.cons rfl List.Forall₂.nil))
      · cases h)
  simpa using h

/-! ### Supporting lemmas: the width tracker -/

theorem bumpLine_length (l : List String) (mins : List Nat) :
    (bumpLine l mins).length = mins.length := by
  induction l generalizing mins with
  | nil => cases mins <;> simp [bumpLine]
  | cons c cs ih => cases mins <;> simp [bumpLine, ih]

theorem updateMins_length (lines : List (List String)) (mins : List Nat) :
    (updateMins lines mins).length = mins.length := by
  induction lines generalizing mins with
  | nil => rfl
  | cons l ls ih =>
    show (updateMins ls (bumpLine l mins)).length = mins.length
    rw [ih, bumpLine_length]

theorem bumpLine_getD (l : List String) (mins : List Nat) (i : Nat)
    (hl : mins.length ≤ l.length) (hi : i < mins.length) :
    (bumpLine l mins).getD i 0 = max (mins.getD i 0) ((l.getD i "").length) := by
  induction l generalizing mins i with
  | nil =>
    cases mins with
    | nil => simp at hi
    | cons m ms => simp at hl
  | cons c cs ih =>
    cases mins with
    | nil => simp at hi
    | cons m ms =>
      cases i with
      | zero => simp [bumpLine]
      | succ j =>
        simp only [bumpLine, List.getD_cons_succ]
        exact ih ms j (by simpa using hl) (by simpa using hi)

theorem bumpLine_getD_le (l : List String) (mins : List Nat) (i : Nat) :
    mins.getD i 0 ≤ (bumpLine l mins).getD i 0 := by
  induction l generalizing mins i with
  | nil => cases mins <;> simp [bumpLine]
  | cons c cs ih =>
    cases mins with
    | nil => simp [bumpLine]
    | cons m ms =>
      cases i with
      | zero => simp [bumpLine]
      | succ j => simpa [bumpLine] using ih ms j

theorem updateMins_getD_le (lines : List (List String)) (mins : List Nat) (i : Nat) :
    mins.getD i 0 ≤ (updateMins lines mins).getD i 0 := by
  induction lines generalizing mins with
  | nil => exact Nat.le_refl _
  | cons l ls ih =>
    exact Nat.le_trans (bumpLine_getD_le l mins i) (ih (bumpLine l mins))

/-- Width state across a whole run: fold each snapshot's `render` first
pass over the initial widths, in order. -/
def runWidths (snaps : List (List (List String))) (mins : List Nat) : List Nat :=
  snaps.foldl (fun m s => updateMins s m) mins

theorem runWidths_getD_le (snaps : List (List (List String))) (mins : List Nat) (i : Nat) :
    mins.getD i 0 ≤ (runWidths snaps mins).getD i 0 := by
  induction snaps generalizing mins with
  | nil => exact Nat.le_refl _
  | cons s ss ih =>
    exact Nat.le_trans (updateMins_getD_le s mins i) (ih (updateMins s mins))

/-- C5: each width entry is updated to the maximum of its current value
and every processed row's string length at that column (header row
included, since the fold runs over all lines), and across a whole run of
snapshots the width state is entrywise non-decreasing: any later state
dominates any earlier one. -/
theorem claim_C5 (mins : List Nat) (lines : List (List String))
    (hlen : ∀ l ∈ lines, mins.length ≤ l.length) :
    (∀ i, i < mins.length →
      (updateMins lines mins).getD i 0 =
        lines.foldl (fun a l => max a ((l.getD i "").length)) (mins.getD i 0)) ∧
    (∀ pre post : List (List (List String)), ∀ i,
      (runWidths pre mins).getD i 0 ≤ (runWidths (pre ++ post) mins).getD i 0) := by
  constructor
  · intro i hi
    induction lines generalizing mins with
    | nil => rfl
    | cons l ls ih =>
      show (updateMins ls (bumpLine l mins)).getD i 0 = _
      rw [ih (bumpLine l mins)
          (fun x hx => by rw [bumpLine_length]; exact hlen x (List.mem_cons_of_mem l hx))
          (by rw [bumpLine_length]; exact hi),
        bumpLine_getD l mins i (hlen l (List.mem_cons_self l ls)) hi]
      rfl
  · intro pre post i
    show _ ≤ (List.foldl (fun m s => updateMins s m) mins (pre ++ post)).getD i 0
    rw [List.foldl_append]
    exact runWidths_getD_le post (runWidths pre mins) i

/-- Witness for C5: two snapshots worth of lines over one column. -/
theorem claim_C5_witness :
    (∀ i, i < ([2] : List Nat).length →
      (updateMins [["a"], ["abc"]] [2]).getD i 0 =
        [["a"], ["abc"]].foldl (fun a l => max a ((l.getD i "").length)) (([2] : List Nat).getD i 0)) ∧
    (∀ pre post : List (List (List String)), ∀ i,
      (runWidths pre [2]).getD i 0 ≤ (runWidths (pre ++ post) [2]).getD i 0) :=
  claim_C5 [2] [["a"], ["abc"]] (by
    intro l hl
    rcases List.mem_cons.mp hl with rfl | hl
    · decide
    · rcases List.mem_cons.mp hl with rfl | hl
      · decide
      · cases hl)

/-! ### Supporting lemmas: the snapshot encoder -/

theorem zipWith_take_left {α β γ : Type} (f : α → β → γ) :
    ∀ (k : Nat) (l : List α) (m : List β),
      List.zipWith f (l.take k) m = (List.zipWith f l m).take k := by
  intro k
  induction k with
  | zero => intro l m; simp
  | succ k ih =>
    intro l m
    cases l with
    | nil => simp
    | cons a as =>
      cases m with
      | nil => simp
      | cons b bs => simp [ih as bs]

theorem bumpLine_getD_ge (l : List String) (mins : List Nat) (j : Nat)
    (hjm : j < mins.length) (hjl : j < l.length) :
    (l.getD j "").length ≤ (bumpLine l mins).getD j 0 := by
  induction l generalizing mins j with
  | nil => simp at hjl
  | cons c cs ih =>
    cases mins with
    | nil => simp at hjm
    | cons m ms =>
      cases j with
      | zero => simp [bumpLine]
      | succ i =>
        simp only [bumpLine, List.getD_cons_succ]
        exact ih ms i (by simpa using hjm) (by simpa using hjl)

theorem le_updateMins_getD_of_mem {l : List String} {lines : List (List String)}
    (mins : List Nat) (hmem : l ∈ lines) (j : Nat)
    (hjm : j < mins.length) (hjl : j < l.length) :
    (l.getD j "").length ≤ (updateMins lines mins).getD j 0 := by
  induction lines generalizing mins with
  | nil => cases hmem
  | cons x ls ih =>
    rcases List.mem_cons.mp hmem with rfl | hmem
    · exact Nat.le_trans (bumpLine_getD_ge l mins j hjm hjl)
        (updateMins_getD_le ls (bumpLine l mins) j)
    · exact ih (bumpLine x mins) hmem (by rwa [bumpLine_length])

theorem padTo_length_of_le {s : String} {w : Nat} (h : s.length ≤ w) :
    (padTo s w).length = w := by
  show (s ++ String.mk (List.replicate (w - s.length) ' ')).length = w
  rw [String.length_append]
  show s.length + (List.replicate (w - s.length) ' ').length = w
  rw [List.length_replicate]
  omega

theorem renderLine_eq (l : List String) (mins : List Nat)
    (hne : mins ≠ []) (hl : mins.length ≤ l.length) :
    renderLine l mins =
      some (strConcat ((List.zipWith (fun c m => padTo c (m + 3)) l mins).take (mins.length - 1))
        ++ l.getD (mins.length - 1) "" ++ "\n") := by
  have hlt : mins.length - 1 < l.length := by
    have : 0 < mins.length := List.length_pos.mpr hne
    omega
  unfold renderLine
  rw [if_neg (by simpa [List.isEmpty_iff] using hne)]
  have hget : l.get? (mins.length - 1) = some (l.getD (mins.length - 1) "") := by
    rw [List.get?_eq_getElem?, List.getElem?_eq_getElem hlt, List.getD_eq_getElem _ _ hlt]
  rw [hget]

theorem renderLine_none_iff (l : List String) (mins : List Nat) :
    renderLine l mins = none ↔ (mins = [] ∨ l.length < mins.length) := by
  unfold renderLine
  rcases eq_or_ne mins [] with rfl | hne
  · simp
  · rw [if_neg (by simpa [List.isEmpty_iff] using hne)]
    have hpos : 0 < mins.length := List.length_pos.mpr hne
    cases hget : l.get? (mins.length - 1) with
    | none =>
      have hlen := List.get?_eq_none.mp hget
      simp only [hne, false_or]
      exact ⟨fun _ => by omega, fun _ => trivial⟩
    | some v =>
      obtain ⟨hlt, -⟩ := List.get?_eq_some.mp hget
      simp only [hne, false_or]
      constructor
      · intro h; cases h
      · intro h; exact absurd h (by omega)

theorem renderPass2_none_iff (lines : List (List String)) (mins : List Nat) :
    renderPass2 lines mins = none ↔ ∃ l ∈ lines, renderLine l mins = none := by
  induction lines with
  | nil => simp [renderPass2]
  | cons l ls ih =>
    constructor
    · intro h
      cases h1 : renderLine l mins with
      | none => exact ⟨l, List.mem_cons_self _ _, h1⟩
      | some s =>
        cases h2 : renderPass2 ls mins with
        | none =>
          obtain ⟨x, hx, hnone⟩ := ih.mp h2
          exact ⟨x, List.mem_cons_of_mem _ hx, hnone⟩
        | some rest =>
          rw [show renderPass2 (l :: ls) mins = some (s ++ rest) from by
            show (match renderLine l mins, renderPass2 ls mins with
              | some s, some rest => some (s ++ rest)
              | _, _ => none) = some (s ++ rest)
            rw [h1, h2]] at h
          cases h
    · rintro ⟨x, hx, hnone⟩
      show (match renderLine l mins, renderPass2 ls mins with
        | some s, some rest => some (s ++ rest)
        | _, _ => none) = none
      rcases List.mem_cons.mp hx with rfl | hx
      · rw [hnone]
      · rw [ih.mpr ⟨x, hx, hnone⟩]
        cases renderLine l mins <;> rfl

theorem renderPass2_eq_of_all (lines : List (List String)) (widths : List Nat)
    (f : List String → String)
    (hall : ∀ l ∈ lines, renderLine l widths = some (f l)) :
    renderPass2 lines widths = some (strConcat (lines.map f)) := by
  induction lines with
  | nil => rfl
  | cons l ls ih =>
    have h1 := hall l (List.mem_cons_self _ _)
    have h2 := ih (fun x hx => hall x (List.mem_cons_of_mem _ hx))
    show (match renderLine l widths, renderPass2 ls widths with
      | some s, some rest => some (s ++ rest)
      | _, _ => none) = _
    rw [h1, h2]
    rfl

/-- C6: with a non-empty width array and rows of schema length, `render`
produces the concatenation of one newline-terminated line per row, in
which each column except the last is the column text right-padded with
spaces to its tracked width plus the fixed margin 3 (exactly that many
characters), and the last column is emitted verbatim with nothing after
it before the newline. -/
theorem claim_C6 (mins : List Nat) (lines : List (List String))
    (hne : mins ≠ []) (hrow : ∀ l ∈ lines, l.length = mins.length) :
    render lines mins = some
      (strConcat (lines.map (fun l =>
        strConcat (List.zipWith (fun c w => padTo c (w + 3))
            (l.take (mins.length - 1)) (updateMins lines mins))
          ++ l.getD (mins.length - 1) "" ++ "\n")),
       updateMins lines mins) ∧
    (∀ l ∈ lines, ∀ j, j < mins.length - 1 →
      (padTo (l.getD j "") ((updateMins lines mins).getD j 0 + 3)).length
        = (updateMins lines mins).getD j 0 + 3) := by
  have hblen : (updateMins lines mins).length = mins.length := updateMins_length lines mins
  have hbne : updateMins lines mins ≠ [] := by
    intro h
    exact hne (List.length_eq_zero.mp (by rw [← hblen, h]; rfl))
  constructor
  · have hpass : renderPass2 lines (updateMins lines mins) =
        some (strConcat (lines.map (fun l =>
          strConcat (List.zipWith (fun c w => padTo c (w + 3))
              (l.take (mins.length - 1)) (updateMins lines mins))
            ++ l.getD (mins.length - 1) "" ++ "\n"))) := by
      refine renderPass2_eq_of_all lines (updateMins lines mins) _ ?_
      intro l hl
      rw [renderLine_eq l (updateMins lines mins) hbne
          (by rw [hblen, hrow l hl])]
      rw [hblen, zipWith_take_left]
    unfold render
    rw [hpass]
  · intro l hl j hj
    have hjm : j < mins.length := by omega
    have hjl : j < l.length := by rw [hrow l hl]; omega
    exact padTo_length_of_le
      (Nat.le_trans (le_updateMins_getD_of_mem mins hl j hjm hjl) (Nat.le_add_right _ 3))

/-- Witness for C6 at a two-column snapshot. -/
theorem claim_C6_witness :
    (render [["ab", "c"]] [0, 0] = some
      (strConcat ([["ab", "c"]].map (fun l =>
        strConcat (List.zipWith (fun c w => padTo c (w + 3))
            (l.take (([0, 0] : List Nat).length - 1)) (updateMins [["ab", "c"]] [0, 0]))
          ++ l.getD (([0, 0] : List Nat).length - 1) "" ++ "\n")),
       updateMins [["ab", "c"]] [0, 0]) ∧
    (∀ l ∈ [["ab", "c"]], ∀ j, j < ([0, 0] : List Nat).length - 1 →
      (padTo (l.getD j "") ((updateMins [["ab", "c"]] [0, 0]).getD j 0 + 3)).length
        = (updateMins [["ab", "c"]] [0, 0]).getD j 0 + 3)) :=
  claim_C6 [0, 0] [["ab", "c"]] (by decide)
    (by
      intro l hl
      rcases List.mem_cons.mp hl with rfl | hl
      · rfl
      · cases hl)

/-- C10 as stated is false: with no rows at all, `render` runs neither
pass body, so an empty width array does not make it panic — the claim's
"if the width array is empty … render panics" fails at
`lines = []`, `mins = []`, where the call returns normally. -/
theorem claim_C10_counterexample :
    (([] : List Nat) = [] ∨
      ∃ l ∈ ([] : List (List String)), l.length < ([] : List Nat).length) ∧
    render ([] : List (List String)) ([] : List Nat) ≠ none :=
  ⟨Or.inl rfl, by decide⟩

/-- C10 (amended): `render` panics exactly when the input holds at least
one row and either the width array is empty or some row is shorter than
the width array; with no rows it returns normally whatever the width
array. -/
theorem claim_C10 (lines : List (List String)) (mins : List Nat) :
    render lines mins = none ↔
      (lines ≠ [] ∧ (mins = [] ∨ ∃ l ∈ lines, l.length < mins.length)) := by
  have hlen := updateMins_length lines mins
  have hrn : render lines mins = none ↔
      renderPass2 lines (updateMins lines mins) = none := by
    unfold render
    cases h : renderPass2 lines (updateMins lines mins) <;> simp [h]
  rw [hrn, renderPass2_none_iff]
  constructor
  · rintro ⟨l, hl, hnone⟩
    rcases (renderLine_none_iff l _).mp hnone with hb | hlt
    · refine ⟨List.ne_nil_of_mem hl, Or.inl ?_⟩
      exact List.length_eq_zero.mp (by rw [← hlen, hb]; rfl)
    · exact ⟨List.ne_nil_of_mem hl, Or.inr ⟨l, hl, by rwa [hlen] at hlt⟩⟩
  · rintro ⟨hne, hcase⟩
    obtain ⟨l0, hl0⟩ := List.exists_mem_of_ne_nil lines hne
    rcases hcase with rfl | ⟨l, hl, hlt⟩
    · refine ⟨l0, hl0, (renderLine_none_iff _ _).mpr (Or.inl ?_)⟩
      exact List.length_eq_zero.mp (by rw [hlen]; rfl)
    · exact ⟨l, hl, (renderLine_none_iff _ _).mpr (Or.inr (by rwa [hlen]))⟩

/-! ### Supporting lemmas: the collection loop -/

theorem afterFetch_counters (env : CycleEnv) (mins : List Nat)
    (lines : List (List String)) (ev : CycleEvents) :
    (afterFetch env mins lines ev).2.1.fetches = ev.fetches ∧
    (afterFetch env mins lines ev).2.1.connects = ev.connects ∧
    (afterFetch env mins lines ev).2.1.closes = ev.closes ∧
    (afterFetch env mins lines ev).2.1.closeErrLogs = ev.closeErrLogs := by
  unfold afterFetch
  cases h : render lines mins with
  | none => exact ⟨rfl, rfl, rfl, rfl⟩
  | some p =>
    obtain ⟨buf, bumped⟩ := p
    cases env.writeOk <;> cases env.flushOk <;> cases env.overUptime <;>
      cases env.recv <;> simp

theorem afterFetch_outcome_congr (env env' : CycleEnv) (mins : List Nat)
    (lines : List (List String)) (ev ev' : CycleEvents)
    (hw : env.writeOk = env'.writeOk) (hf : env.flushOk = env'.flushOk)
    (hu : env.overUptime = env'.overUptime) (hr : env.recv = env'.recv) :
    (afterFetch env mins lines ev).1 = (afterFetch env' mins lines ev').1 := by
  unfold afterFetch
  rw [hw, hf, hu, hr]
  cases h : render lines mins with
  | none => rfl
  | some p =>
    obtain ⟨buf, bumped⟩ := p
    cases env'.writeOk <;> cases env'.flushOk <;> cases env'.overUptime <;>
      cases env'.recv <;> simp

theorem runLoop_cons_break (env : CycleEnv) (rest : List CycleEnv) (mins : List Nat)
    (h : (stepCycle env mins).1 = CycleOutcome.breakClean) :
    runLoop (env :: rest) mins =
      { exit := ExitStatus.cleanExit, finalizes := 1,
        closes := (stepCycle env mins).2.1.closes + 1,
        fetches := (stepCycle env mins).2.1.fetches,
        connects := (stepCycle env mins).2.1.connects } := by
  rcases hs : stepCycle env mins with ⟨out, ev, m⟩
  rw [hs] at h
  simp only at h
  subst h
  simp only [runLoop, hs]

/-! ### Claims C1, C2, C9: the collection loop -/

/-- C1 as stated is false on the code: when `fetch` fails twice in a row
the `?` on the retried fetch propagates straight out of `main`, skipping
`output.do_finish()` — the run ends with a non-zero exit and the stream
never finalized (trailer unwritten).  Concretely, on the one-cycle trace
whose first and retried fetches both fail, the run exits with an error
and zero finalizations. -/
theorem claim_C1_counterexample :
    (runLoop [⟨FetchRes.err, false, true, FetchRes.err, true, true, false,
        RecvRes.timeout⟩] []).exit = ExitStatus.errExit ∧
    (runLoop [⟨FetchRes.err, false, true, FetchRes.err, true, true, false,
        RecvRes.timeout⟩] []).finalizes = 0 := by
  decide

/-- C1 (amended): the output stream is finalized exactly once on the
clean exit paths — loop exit on max-uptime, on a shutdown notification or
on a torn-down channel — and is not finalized at all on error exits
(reconnect failure, second fetch failure, write or flush failure) or on a
render panic: finalization count is 1 exactly when the run exits
cleanly, 0 otherwise. -/
theorem claim_C1 (trace : List CycleEnv) (mins : List Nat) :
    (runLoop trace mins).finalizes =
      if (runLoop trace mins).exit = ExitStatus.cleanExit then 1 else 0 := by
  induction trace generalizing mins with
  | nil => rfl
  | cons env rest ih =>
    rcases hs : stepCycle env mins with ⟨out, ev, bumped⟩
    cases out <;> simp only [runLoop, hs] <;> simp [ih bumped]

/-- C2: whenever the first `fetch` of a cycle fails, the loop performs
exactly one recovery: one best-effort close of the broken handle (a close
failure only adds a diagnostic line and never changes the outcome), one
reconnect, and at most one retried fetch — exactly one retry when the
reconnect succeeds, none when it fails — and a failure of the reconnect
or of the retried fetch makes the cycle fatal (the error propagates). -/
theorem claim_C2 (env : CycleEnv) (mins : List Nat)
    (hf : env.fetch1 = FetchRes.err) :
    (stepCycle env mins).2.1.closes = 1 ∧
    (stepCycle env mins).2.1.connects = 1 ∧
    (env.reconnectOk = false → (stepCycle env mins).1 = CycleOutcome.fatal ∧
      (stepCycle env mins).2.1.fetches = 1) ∧
    (env.reconnectOk = true → (stepCycle env mins).2.1.fetches = 2 ∧
      (env.fetch2 = FetchRes.err → (stepCycle env mins).1 = CycleOutcome.fatal)) ∧
    (stepCycle env mins).2.1.closeErrLogs = (if env.closeFails then 1 else 0) ∧
    (stepCycle { env with closeFails := true } mins).1 =
      (stepCycle { env with closeFails := false } mins).1 := by
  obtain ⟨f1, cf, rok, f2, w, fl, ou, rv⟩ := env
  simp only at hf
  subst hf
  cases rok with
  | false =>
    refine ⟨rfl, rfl, fun _ => ⟨rfl, rfl⟩, ?_, ?_, rfl⟩
    · intro h; simp at h
    · cases cf <;> rfl
  | true =>
    cases f2 with
    | err =>
      refine ⟨rfl, rfl, ?_, fun _ => ⟨rfl, fun _ => rfl⟩, ?_, rfl⟩
      · intro h; simp at h
      · cases cf <;> rfl
    | ok lines =>
      have hcnt := fun logs => afterFetch_counters
        ⟨FetchRes.err, cf, true, FetchRes.ok lines, w, fl, ou, rv⟩ mins lines
        ⟨2, 1, 1, 0, logs⟩
      refine ⟨(hcnt _).2.2.1, (hcnt _).2.1, ?_, fun _ => ⟨(hcnt _).1, ?_⟩, ?_, ?_⟩
      · intro h; simp at h
      · intro h; simp at h
      · cases cf
        · exact (hcnt 0).2.2.2
        · exact (hcnt 1).2.2.2
      · exact afterFetch_outcome_congr
          ⟨FetchRes.err, true, true, FetchRes.ok lines, w, fl, ou, rv⟩
          ⟨FetchRes.err, false, true, FetchRes.ok lines, w, fl, ou, rv⟩
          mins lines _ _ rfl rfl rfl rfl

/-- Witness for C2: first fetch fails, reconnect succeeds, retry fails. -/
theorem claim_C2_witness :
    (stepCycle ⟨FetchRes.err, false, true, FetchRes.err, true, true, false,
        RecvRes.timeout⟩ []).2.1.closes = 1 ∧
    (stepCycle ⟨FetchRes.err, false, true, FetchRes.err, true, true, false,
        RecvRes.timeout⟩ []).2.1.connects = 1 ∧
    ((⟨FetchRes.err, false, true, FetchRes.err, true, true, false,
        RecvRes.timeout⟩ : CycleEnv).reconnectOk = false →
      (stepCycle ⟨FetchRes.err, false, true, FetchRes.err, true, true, false,
        RecvRes.timeout⟩ []).1 = CycleOutcome.fatal ∧
      (stepCycle ⟨FetchRes.err, false, true, FetchRes.err, true, true, false,
        RecvRes.timeout⟩ []).2.1.fetches = 1) ∧
    ((⟨FetchRes.err, false, true, FetchRes.err, true, true, false,
        RecvRes.timeout⟩ : CycleEnv).reconnectOk = true →
      (stepCycle ⟨FetchRes.err, false, true, FetchRes.err, true, true, false,
        RecvRes.timeout⟩ []).2.1.fetches = 2 ∧
      ((⟨FetchRes.err, false, true, FetchRes.err, true, true, false,
          RecvRes.timeout⟩ : CycleEnv).fetch2 = FetchRes.err →
        (stepCycle ⟨FetchRes.err, false, true, FetchRes.err, true, true, false,
          RecvRes.timeout⟩ []).1 = CycleOutcome.fatal)) ∧
    (stepCycle ⟨FetchRes.err, false, true, FetchRes.err, true, true, false,
        RecvRes.timeout⟩ []).2.1.closeErrLogs =
      (if (⟨FetchRes.err, false, true, FetchRes.err, true, true, false,
        RecvRes.timeout⟩ : CycleEnv).closeFails then 1 else 0) ∧
    (stepCycle { (⟨FetchRes.err, false, true, FetchRes.err, true, true, false,
        RecvRes.timeout⟩ : CycleEnv) with closeFails := true } []).1 =
      (stepCycle { (⟨FetchRes.err, false, true, FetchRes.err, true, true, false,
        RecvRes.timeout⟩ : CycleEnv) with closeFails := false } []).1 :=
  claim_C2 ⟨FetchRes.err, false, true, FetchRes.err, true, true, false,
    RecvRes.timeout⟩ [] rfl

/-- C9: in a cycle whose fetch phase produced lines and whose write and
flush succeed, the loop first checks max-uptime — exiting cleanly without
consulting the shutdown channel when it is exceeded — and otherwise
consults the channel exactly once: a timeout continues to the next cycle,
while a pending notification or a torn-down channel breaks out; and a
clean break makes the whole run close the connection once more, finalize
the output exactly once and exit cleanly. -/
theorem claim_C9 (env : CycleEnv) (mins : List Nat) (lines : List (List String))
    (buf : String) (bumped : List Nat)
    (hf : env.fetch1 = FetchRes.ok lines)
    (hr : render lines mins = some (buf, bumped))
    (hw : env.writeOk = true) (hfl : env.flushOk = true) :
    (env.overUptime = true → stepCycle env mins =
      (CycleOutcome.breakClean,
        { fetches := 1, connects := 0, closes := 0, recvWaits := 0, closeErrLogs := 0 },
        bumped)) ∧
    (env.overUptime = false →
      ((stepCycle env mins).2.1.recvWaits = 1 ∧
        (env.recv = RecvRes.timeout → (stepCycle env mins).1 = CycleOutcome.next) ∧
        (env.recv = RecvRes.notified →
          (stepCycle env mins).1 = CycleOutcome.breakClean) ∧
        (env.recv = RecvRes.disconnected →
          (stepCycle env mins).1 = CycleOutcome.breakClean))) ∧
    ((stepCycle env mins).1 = CycleOutcome.breakClean →
      ∀ rest, (runLoop (env :: rest) mins).exit = ExitStatus.cleanExit ∧
        (runLoop (env :: rest) mins).finalizes = 1 ∧
        (runLoop (env :: rest) mins).closes = (stepCycle env mins).2.1.closes + 1) := by
  have hrest : ∀ rest, (stepCycle env mins).1 = CycleOutcome.breakClean →
      (runLoop (env :: rest) mins).exit = ExitStatus.cleanExit ∧
      (runLoop (env :: rest) mins).finalizes = 1 ∧
      (runLoop (env :: rest) mins).closes = (stepCycle env mins).2.1.closes + 1 := by
    intro rest h
    rw [runLoop_cons_break env rest mins h]
    exact ⟨rfl, rfl, rfl⟩
  obtain ⟨f1, cf, rok, f2, w, fl, ou, rv⟩ := env
  simp only at hf hw hfl
  subst hf hw hfl
  cases ou with
  | true =>
    refine ⟨fun _ => ?_, ?_, fun h rest => hrest rest h⟩
    · simp [stepCycle, afterFetch, hr]
    · intro h; simp at h
  | false =>
    refine ⟨?_, fun _ => ?_, fun h rest => hrest rest h⟩
    · intro h; simp at h
    · cases rv <;> refine ⟨?_, ?_, ?_, ?_⟩ <;>
        first
          | (intro h; simp [stepCycle, afterFetch, hr]; done)
          | (intro h; exact nomatch h)
          | simp [stepCycle, afterFetch, hr]

/-- Witness for C9: shutdown notification arrives mid-wait. -/
theorem claim_C9_witness :
    ((⟨FetchRes.ok [["a"]], false, true, FetchRes.err, true, true, false,
        RecvRes.notified⟩ : CycleEnv).overUptime = true →
      stepCycle ⟨FetchRes.ok [["a"]], false, true, FetchRes.err, true, true, false,
        RecvRes.notified⟩ [0] =
      (CycleOutcome.breakClean,
        { fetches := 1, connects := 0, closes := 0, recvWaits := 0, closeErrLogs := 0 },
        [1])) ∧
    ((⟨FetchRes.ok [["a"]], false, true, FetchRes.err, true, true, false,
        RecvRes.notified⟩ : CycleEnv).overUptime = false →
      ((stepCycle ⟨FetchRes.ok [["a"]], false, true, FetchRes.err, true, true, false,
          RecvRes.notified⟩ [0]).2.1.recvWaits = 1 ∧
        ((⟨FetchRes.ok [["a"]], false, true, FetchRes.err, true, true, false,
            RecvRes.notified⟩ : CycleEnv).recv = RecvRes.timeout →
          (stepCycle ⟨FetchRes.ok [["a"]], false, true, FetchRes.err, true, true, false,
            RecvRes.notified⟩ [0]).1 = CycleOutcome.next) ∧
        ((⟨FetchRes.ok [["a"]], false, true, FetchRes.err, true, true, false,
            RecvRes.notified⟩ : CycleEnv).recv = RecvRes.notified →
          (stepCycle ⟨FetchRes.ok [["a"]], false, true, FetchRes.err, true, true, false,
            RecvRes.notified⟩ [0]).1 = CycleOutcome.breakClean) ∧
        ((⟨FetchRes.ok [["a"]], false, true, FetchRes.err, true, true, false,
            RecvRes.notified⟩ : CycleEnv).recv = RecvRes.disconnected →
          (stepCycle ⟨FetchRes.ok [["a"]], false, true, FetchRes.err, true, true, false,
            RecvRes.notified⟩ [0]).1 = CycleOutcome.breakClean))) ∧
    ((stepCycle ⟨FetchRes.ok [["a"]], false, true, FetchRes.err, true, true, false,
        RecvRes.notified⟩ [0]).1 = CycleOutcome.breakClean →
      ∀ rest, (runLoop ((⟨FetchRes.ok [["a"]], false, true, FetchRes.err, true, true,
          false, RecvRes.notified⟩ : CycleEnv) :: rest) [0]).exit = ExitStatus.cleanExit ∧
        (runLoop ((⟨FetchRes.ok [["a"]], false, true, FetchRes.err, true, true,
          false, RecvRes.notified⟩ : CycleEnv) :: rest) [0]).finalizes = 1 ∧
        (runLoop ((⟨FetchRes.ok [["a"]], false, true, FetchRes.err, true, true,
          false, RecvRes.notified⟩ : CycleEnv) :: rest) [0]).closes =
          (stepCycle ⟨FetchRes.ok [["a"]], false, true, FetchRes.err, true, true,
            false, RecvRes.notified⟩ [0]).2.1.closes + 1) :=
  claim_C9 ⟨FetchRes.ok [["a"]], false, true, FetchRes.err, true, true, false,
    RecvRes.notified⟩ [0] [["a"]] "a\n" [1] rfl (by decide) rfl rfl

/-! ### Claims C7 and C8: teardown and shutdown coordinator -/

/-- C7: `attempt_close` is idempotent — on a handle whose session reports
already closed it returns the handle unchanged with no diagnostics and no
error; on a live handle it releases the statement and closes the session,
a close-time error producing only a log line (the function cannot
propagate an error); and a second application is always a silent no-op. -/
theorem claim_C7 (conn : Pg) :
    (conn.client.isClosed = true → attempt_close conn = (conn, [])) ∧
    (conn.client.isClosed = false →
      ((attempt_close conn).1.client.isClosed = true ∧
        (attempt_close conn).1.statLive = false ∧
        (attempt_close conn).2 =
          (if conn.client.closeWouldFail then ["error closing"] else []))) ∧
    attempt_close (attempt_close conn).1 = ((attempt_close conn).1, []) := by
  obtain ⟨⟨closed, cf⟩, sl⟩ := conn
  cases closed <;> cases cf <;> simp [attempt_close]

/-- Witness for C7 on a live handle whose close would fail. -/
theorem claim_C7_witness :
    ((⟨⟨false, true⟩, true⟩ : Pg).client.isClosed = true →
      attempt_close ⟨⟨false, true⟩, true⟩ = (⟨⟨false, true⟩, true⟩, [])) ∧
    ((⟨⟨false, true⟩, true⟩ : Pg).client.isClosed = false →
      ((attempt_close ⟨⟨false, true⟩, true⟩).1.client.isClosed = true ∧
        (attempt_close ⟨⟨false, true⟩, true⟩).1.statLive = false ∧
        (attempt_close ⟨⟨false, true⟩, true⟩).2 =
          (if (⟨⟨false, true⟩, true⟩ : Pg).client.closeWouldFail
            then ["error closing"] else []))) ∧
    attempt_close (attempt_close ⟨⟨false, true⟩, true⟩).1 =
      ((attempt_close ⟨⟨false, true⟩, true⟩).1, []) :=
  claim_C7 ⟨⟨false, true⟩, true⟩

/-- C8: the first interrupt on an empty capacity-one channel posts exactly
one notification (the channel becomes full), logs the clean-shutdown line
and lets the process continue; an interrupt finding the notification
still unconsumed, or the channel torn down, terminates immediately with
exit code 6, which is non-zero and reserved for this case. -/
theorem claim_C8 :
    (ctrlcHandler ChanState.empty).chan = ChanState.full ∧
    (ctrlcHandler ChanState.empty).exitCode = none ∧
    (ctrlcHandler ChanState.empty).loggedCleanShutdown = true ∧
    (ctrlcHandler ChanState.full).exitCode = some 6 ∧
    (ctrlcHandler ChanState.full).chan = ChanState.full ∧
    (ctrlcHandler ChanState.disconnected).exitCode = some 6 ∧
    (6 : Nat) ≠ 0 := by
  exact ⟨rfl, rfl, rfl, rfl, rfl, rfl, by decide⟩

end PgStatDump


